import Mathlib

/-
  Shallow embedding of the "vim title edit" Obsidian plugin
  (src/src/main.ts, class VimTitleEditPlugin).

  The plugin intercepts the key "k" pressed in vim normal mode on line 0 of
  the body editor, transfers focus to the inline title element, tracks the
  edited title text, and on Escape/Enter commits the value as a file rename
  and returns focus to the body editor.

  Modelling conventions:
  * DOM events are records carrying the fields the handlers read
    (`key`, the result of `target.closest(".cm-editor")`, cursor indicators).
  * The plugin's mutable fields become the record `St`.  Event-listener
    attachment is made explicit: each closure created by `focusTitle` gets a
    fresh numeric identity (`nextId` counter) and `listeners` records the
    (element, event-kind, closure) triples currently attached, with
    `addEventListener` appending and `removeEventListener` removing the
    first matching triple.
  * Side effects (notices, rename requests, focus moves, cursor moves)
    are collected in a `List Effect`.
  * JavaScript `String.prototype.trim` is modelled by `jsTrim`: dropping
    whitespace characters from both ends.
-/

namespace VimTitleEdit

/-- Removal of trailing characters satisfying `p` (the right half of
JavaScript `trim`): drops the maximal run of `p`-characters at the end. -/
def rdrop (p : Char → Bool) : List Char → List Char
  | [] => []
  | a :: l =>
    match rdrop p l with
    | [] => if p a then [] else [a]
    | b :: r => a :: b :: r

/-- The list-level model of JavaScript `trim`: drop whitespace from the
front, then from the back. -/
def trimL (l : List Char) : List Char :=
  rdrop Char.isWhitespace (l.dropWhile Char.isWhitespace)

/-- Model of JavaScript `String.prototype.trim`. -/
def jsTrim (s : String) : String := ⟨trimL s.data⟩

/-- Model of the JavaScript expression `el.textContent?.trim() || ''`:
empty string when `textContent` is `null`, otherwise the trimmed content
(note that `|| ''` maps an empty trim result to `''` again, so the value
is simply the trim of the content). -/
def jsTextVal (t : Option String) : String :=
  match t with
  | none => ""
  | some str => jsTrim str

/-- The two DOM event kinds the session attaches to the title element. -/
inductive HKind where
  | input
  | keydown
deriving DecidableEq, Repr

/-- One attached DOM listener: element identity, event kind, and the
identity of the closure that was registered. -/
structure Listener where
  el : Nat
  kind : HKind
  handler : Nat
deriving DecidableEq, Repr

/-- `removeEventListener`: removes the first matching registration,
no-op when the triple is not attached. -/
def removeFirst (tgt : Listener) : List Listener → List Listener
  | [] => []
  | x :: xs => if x = tgt then xs else x :: removeFirst tgt xs

/-- Observable side effects of the plugin's handlers. -/
inductive Effect where
  | notice (msg : String)
  | rename (newPath : String)
  | focusEditorBody
  | setCursor (line ch : Nat)
  | focusTitleSurface (el : Nat)
  | caretToEnd (el : Nat)
deriving DecidableEq, Repr

/-- The rename requests contained in an effect trace. -/
def renamePaths (effs : List Effect) : List String :=
  effs.filterMap fun e =>
    match e with
    | Effect.rename p => some p
    | _ => none

/-- The notices contained in an effect trace. -/
def noticeMsgs (effs : List Effect) : List String :=
  effs.filterMap fun e =>
    match e with
    | Effect.notice m => some m
    | _ => none

/-- `view.file`: `basename` and `parent?.path` (absent parent modelled as
`none`). -/
structure FileInfo where
  basename : String
  parentPath : Option String
deriving DecidableEq, Repr

/-- The `.inline-title` element of a view: its DOM identity and its
`textContent` (nullable). -/
structure TitleSurface where
  id : Nat
  textContent : Option String
deriving DecidableEq, Repr

/-- The active `MarkdownView`: cursor line of its editor, the result of
`containerEl.querySelector(".inline-title")`, and its backing file. -/
structure ViewS where
  cursorLine : Nat
  titleEl : Option TitleSurface
  file : Option FileInfo
deriving DecidableEq, Repr

/-- The external world read by the handlers: the active markdown view
(`getActiveViewOfType`) and the outcome the rename service would produce
(`none` = success, `some err` = `renameFile` throws `err`). -/
structure Env where
  activeView : Option ViewS
  renameRes : Option String
deriving DecidableEq, Repr

/-- The result of `target.closest(".cm-editor")` together with the two
cursor-indicator queries made on it. -/
structure EditorElInfo where
  hasFatCursor : Bool
  hasVimCursorLayer : Bool
deriving DecidableEq, Repr

/-- A keydown event as read by `handleEditorKeydown`. -/
structure KeyEvt where
  key : String
  editorAncestor : Option EditorElInfo
deriving DecidableEq, Repr

/-- The plugin's mutable fields (`inTitleMode`, `vimModeClass`,
`editedTitle`, the two stored handler references, `currentTitleEl`),
plus the explicit listener table and the fresh-closure counter. -/
structure St where
  inTitleMode : Bool
  vimModeClass : String
  editedTitle : String
  titleKeyHandler : Option Nat
  titleInputHandler : Option Nat
  currentTitleEl : Option Nat
  nextId : Nat
  listeners : List Listener
deriving DecidableEq, Repr

/-- The plugin's state right after `onload`. -/
def initSt : St :=
  { inTitleMode := false
    vimModeClass := ""
    editedTitle := ""
    titleKeyHandler := none
    titleInputHandler := none
    currentTitleEl := none
    nextId := 0
    listeners := [] }

/-- The `vim-mode-change` listener: `this.vimModeClass = customEvt.detail?.mode || ''`. -/
def vimModeChange (s : St) (detailMode : Option String) : St :=
  { s with vimModeClass := detailMode.getD "" }

/-- The notice text shown when the inline title element is missing. -/
def inlineTitleNotFoundMsg : String :=
  "Inline title not found. Enable it in Settings > Editor > Show inline title"

/-- `cleanupTitleHandlers` (main.ts lines 143-154): detach the stored
keydown listener, then the stored input listener, from the stored title
element (each only when both references are non-null), then null out the
references and leave title mode. -/
def cleanupTitleHandlers (s : St) : St :=
  let l1 :=
    match s.currentTitleEl, s.titleKeyHandler with
    | some el, some h => removeFirst ⟨el, HKind.keydown, h⟩ s.listeners
    | _, _ => s.listeners
  let l2 :=
    match s.currentTitleEl, s.titleInputHandler with
    | some el, some h => removeFirst ⟨el, HKind.input, h⟩ l1
    | _, _ => l1
  { s with
    titleKeyHandler := none
    titleInputHandler := none
    currentTitleEl := none
    inTitleMode := false
    listeners := l2 }

/-- `focusTitle` (main.ts lines 82-141), the `begin()` of a title-edit
session: needs an active view; needs its `.inline-title` element (else a
notice and abort); then cleans up any previous session, stores the element,
initialises `editedTitle` from the element's text, creates two fresh
closures, attaches them as input and keydown listeners, and focuses the
element with the caret at the end. -/
def focusTitle (s : St) (env : Env) : St × List Effect :=
  match env.activeView with
  | none => (s, [])
  | some view =>
    match view.titleEl with
    | none => (s, [Effect.notice inlineTitleNotFoundMsg])
    | some tEl =>
      ({ inTitleMode := true
         vimModeClass := (cleanupTitleHandlers s).vimModeClass
         editedTitle := jsTextVal tEl.textContent
         titleKeyHandler := some ((cleanupTitleHandlers s).nextId + 1)
         titleInputHandler := some (cleanupTitleHandlers s).nextId
         currentTitleEl := some tEl.id
         nextId := (cleanupTitleHandlers s).nextId + 2
         listeners := (cleanupTitleHandlers s).listeners ++
           [⟨tEl.id, HKind.input, (cleanupTitleHandlers s).nextId⟩,
            ⟨tEl.id, HKind.keydown, (cleanupTitleHandlers s).nextId + 1⟩] },
       [Effect.focusTitleSurface tEl.id, Effect.caretToEnd tEl.id])

/-- The input listener attached by `focusTitle`
(`this.editedTitle = titleEl.textContent?.trim() || ''`), run when the title
element's current text content is `t`. -/
def titleInputRun (s : St) (t : Option String) : St :=
  { s with editedTitle := jsTextVal t }

/-- `saveTitleValue` (main.ts lines 165-195), the rename commit: needs a
view with a file (else silent return); an empty value gets the
"Title cannot be empty" notice; a value equal to the current basename is a
silent no-op; otherwise the target path is built from `parent?.path || ''`
and the value plus ".md", the rename is requested, and a success or failure
notice is shown. -/
def saveTitleValue (env : Env) (newTitle : String) : List Effect :=
  match env.activeView with
  | none => []
  | some view =>
    match view.file with
    | none => []
    | some file =>
      if newTitle = "" then [Effect.notice "Title cannot be empty"]
      else if newTitle = file.basename then []
      else
        let folder := (file.parentPath.getD "")
        let newPath :=
          if folder ≠ "" then folder ++ "/" ++ newTitle ++ ".md"
          else newTitle ++ ".md"
        match env.renameRes with
        | none => [Effect.rename newPath, Effect.notice ("Renamed to: " ++ newTitle)]
        | some err => [Effect.rename newPath, Effect.notice ("Failed to rename: " ++ err)]

/-- `returnToEditor` (main.ts lines 156-163): no-op without an active view;
otherwise focus the body editor, set its cursor to line 0 column 0, and
clear `inTitleMode`. -/
def returnToEditor (s : St) (env : Env) : St × List Effect :=
  match env.activeView with
  | none => (s, [])
  | some _ => ({ s with inTitleMode := false }, [Effect.focusEditorBody, Effect.setCursor 0 0])

/-- Result of running a keydown handler: whether `preventDefault` and
`stopPropagation` were called, the new plugin state, and the emitted
effects. -/
structure KeyOutcome where
  prevented : Bool
  stopped : Bool
  state : St
  effects : List Effect
deriving DecidableEq, Repr

/-- The keydown listener attached to the title element by `focusTitle`
(main.ts lines 115-125): on Escape or Enter, prevent default and
propagation, save the current `editedTitle`, clean up the session, and
return to the body editor; any other key is left untouched. -/
def handleTitleKey (s : St) (env : Env) (key : String) : KeyOutcome :=
  if key = "Escape" ∨ key = "Enter" then
    let saveEff := saveTitleValue env s.editedTitle
    let s1 := cleanupTitleHandlers s
    let r2 := returnToEditor s1 env
    { prevented := true, stopped := true, state := r2.1, effects := saveEff ++ r2.2 }
  else
    { prevented := false, stopped := false, state := s, effects := [] }

/-- Result of the document-level keydown filter: event flags, how many
times `focusTitle` (the session `begin()`) was invoked, the new state and
the effects. -/
structure FilterOutcome where
  prevented : Bool
  stopped : Bool
  beginCalls : Nat
  state : St
  effects : List Effect
deriving DecidableEq, Repr

/-- `handleEditorKeydown` (main.ts lines 42-80), the interception filter:
only the key "k"; only with `target.closest(".cm-editor")` non-null; only
in vim normal mode (fat-cursor indicator, vim-cursor-layer indicator, or
tracked mode "normal"); only with an active view whose cursor is on
line 0.  When everything matches it prevents default and propagation and
invokes `focusTitle` once; otherwise the event is left untouched. -/
def handleEditorKeydown (s : St) (env : Env) (e : KeyEvt) : FilterOutcome :=
  if e.key ≠ "k" then ⟨false, false, 0, s, []⟩
  else
    match e.editorAncestor with
    | none => ⟨false, false, 0, s, []⟩
    | some ed =>
      if ed.hasFatCursor || ed.hasVimCursorLayer || s.vimModeClass = "normal" then
        match env.activeView with
        | none => ⟨false, false, 0, s, []⟩
        | some view =>
          if view.cursorLine = 0 then
            let r := focusTitle s env
            ⟨true, true, 1, r.1, r.2⟩
          else ⟨false, false, 0, s, []⟩
      else ⟨false, false, 0, s, []⟩

/-- The condition under which the interception filter fires, exactly as the
claim enumerates it: trigger key "k", target inside a `.cm-editor` subtree,
normal mode detected by the three-way disjunction, and the body cursor on
line 0 of an active view. -/
def filterFires (s : St) (env : Env) (e : KeyEvt) : Bool :=
  (e.key == "k") &&
    (match e.editorAncestor with
     | none => false
     | some ed => ed.hasFatCursor || ed.hasVimCursorLayer || decide (s.vimModeClass = "normal")) &&
    (match env.activeView with
     | none => false
     | some view => decide (view.cursorLine = 0))

/-- The listener bookkeeping invariant: either no session is open (all three
references null and nothing attached) or exactly one session is open, with
exactly the session's input and keydown closures attached to the session's
title element. -/
def sessionInv (s : St) : Prop :=
  (s.currentTitleEl = none ∧ s.titleInputHandler = none ∧ s.titleKeyHandler = none ∧
    s.listeners = []) ∨
  (∃ el i k, s.currentTitleEl = some el ∧ s.titleInputHandler = some i ∧
    s.titleKeyHandler = some k ∧ i ≠ k ∧
    s.listeners = [⟨el, HKind.input, i⟩, ⟨el, HKind.keydown, k⟩])

/-- A sequence of `begin()` invocations (`focusTitle`), each against its own
snapshot of the external world. -/
def runBegins (s : St) (envs : List Env) : St :=
  envs.foldl (fun st e => (focusTitle st e).1) s

/-- An environment with an active markdown view, an inline title element
with identity 5, and a backing file, used to exercise the session
machinery. -/
def envSessionA : Env :=
  { activeView := some
      { cursorLine := 0
        titleEl := some ⟨5, some " My Note "⟩
        file := some ⟨"My Note", some "dir"⟩ }
    renameRes := none }

/-- An environment whose view has a file named "note" inside folder "dir". -/
def envCommitA : Env :=
  { activeView := some { cursorLine := 0, titleEl := none, file := some ⟨"note", some "dir"⟩ }
    renameRes := none }

/-- An environment whose view has a file named "b" inside folder "d". -/
def envRenameB : Env :=
  { activeView := some { cursorLine := 0, titleEl := none, file := some ⟨"b", some "d"⟩ }
    renameRes := none }

/-- An environment whose view has a file named "a" inside folder "d". -/
def envUnchangedA : Env :=
  { activeView := some { cursorLine := 0, titleEl := none, file := some ⟨"a", some "d"⟩ }
    renameRes := none }

/-- An environment whose view has a file with an empty basename. -/
def envEmptyBase : Env :=
  { activeView := some { cursorLine := 0, titleEl := none, file := some ⟨"", some "d"⟩ }
    renameRes := none }

/-- An environment with no active markdown view. -/
def envNoView : Env := { activeView := none, renameRes := none }

/-- An environment whose active view has no backing file. -/
def envNoFile : Env :=
  { activeView := some { cursorLine := 0, titleEl := some ⟨2, some "t"⟩, file := none }
    renameRes := none }

/-- An environment whose active view has no inline title element. -/
def envNoTitle : Env :=
  { activeView := some { cursorLine := 0, titleEl := none, file := some ⟨"note", some "dir"⟩ }
    renameRes := none }

/-- A state with one session open on title element 3. -/
def stOpenSession : St :=
  { inTitleMode := true
    vimModeClass := "normal"
    editedTitle := "My Note"
    titleKeyHandler := some 1
    titleInputHandler := some 0
    currentTitleEl := some 3
    nextId := 2
    listeners := [⟨3, HKind.input, 0⟩, ⟨3, HKind.keydown, 1⟩] }

/-- A keydown event: key "k", target inside a `.cm-editor` showing the fat
(block) cursor. -/
def evtK : KeyEvt :=
  { key := "k", editorAncestor := some { hasFatCursor := true, hasVimCursorLayer := false } }

/-- An environment for the interception witness: active view on line 0 with
a title element and a file. -/
def envFilterA : Env :=
  { activeView := some
      { cursorLine := 0
        titleEl := some ⟨3, some " My Note "⟩
        file := some ⟨"My Note", some "dir"⟩ }
    renameRes := none }

end VimTitleEdit

namespace VimTitleEdit

/- ------------------------------------------------------------------ -/
/- Helper lemmas.                                                      -/
/- ------------------------------------------------------------------ -/

theorem rdrop_head_eq (p : Char → Bool) (l : List Char) :
    rdrop p l = [] ∨ (rdrop p l).head? = l.head? := by
  cases l with
  | nil => exact Or.inl rfl
  | cons a t =>
    cases h : rdrop p t with
    | nil =>
      by_cases hp : p a
      · exact Or.inl (by simp [rdrop, h, hp])
      · exact Or.inr (by simp [rdrop, h, hp])
    | cons b r => exact Or.inr (by simp [rdrop, h])

theorem rdrop_idem (p : Char → Bool) (l : List Char) :
    rdrop p (rdrop p l) = rdrop p l := by
  induction l with
  | nil => rfl
  | cons a t ih =>
    cases h : rdrop p t with
    | nil =>
      by_cases hp : p a
      · simp [rdrop, h, hp]
      · simp [rdrop, h, hp]
    | cons b r =>
      have hbr : rdrop p (b :: r) = b :: r := by rw [← h, ih]
      have h2 : rdrop p (a :: t) = a :: b :: r := by simp [rdrop, h]
      have h3 : rdrop p (a :: b :: r) =
          match rdrop p (b :: r) with
          | [] => if p a then [] else [a]
          | c :: q => a :: c :: q := rfl
      rw [h2, h3, hbr]

theorem dropWhile_head_false (p : Char → Bool) (l : List Char) :
    ∀ c ∈ (l.dropWhile p).head?, p c = false := by
  induction l with
  | nil => intro c hc; simp at hc
  | cons a t ih =>
    by_cases hp : p a = true
    · intro c hc
      rw [List.dropWhile_cons, if_pos hp] at hc
      exact ih c hc
    · intro c hc
      rw [List.dropWhile_cons, if_neg hp] at hc
      simp at hc
      subst hc
      simpa using hp

theorem dropWhile_eq_self (p : Char → Bool) (l : List Char)
    (h : ∀ c ∈ l.head?, p c = false) : l.dropWhile p = l := by
  cases l with
  | nil => rfl
  | cons a t =>
    have ha : p a = false := h a (by simp)
    rw [List.dropWhile_cons, if_neg (by simp [ha])]

theorem trimL_idem (l : List Char) : trimL (trimL l) = trimL l := by
  unfold trimL
  have hhead : ∀ c ∈ (rdrop Char.isWhitespace (l.dropWhile Char.isWhitespace)).head?,
      Char.isWhitespace c = false := by
    rcases rdrop_head_eq Char.isWhitespace (l.dropWhile Char.isWhitespace) with h | h
    · rw [h]; intro c hc; simp at hc
    · rw [h]; exact dropWhile_head_false Char.isWhitespace l
  rw [dropWhile_eq_self Char.isWhitespace _ hhead, rdrop_idem]

theorem jsTrim_idem (s : String) : jsTrim (jsTrim s) = jsTrim s := by
  unfold jsTrim
  exact congrArg String.mk (trimL_idem s.data)

theorem jsTextVal_trimmed (t : Option String) : jsTrim (jsTextVal t) = jsTextVal t := by
  cases t with
  | none => rfl
  | some str => exact jsTrim_idem str

theorem cleanup_clears (s : St) (h : sessionInv s) :
    (cleanupTitleHandlers s).listeners = [] := by
  rcases h with ⟨h1, h2, h3, h4⟩ | ⟨el, i, k, h1, h2, h3, hne, hl⟩
  · simp [cleanupTitleHandlers, h1, h2, h3, h4]
  · simp [cleanupTitleHandlers, h1, h2, h3, hl, removeFirst, Listener.mk.injEq]

theorem focusTitle_inv (s : St) (env : Env) (h : sessionInv s) :
    sessionInv (focusTitle s env).1 := by
  cases hv : env.activeView with
  | none => simpa only [focusTitle, hv] using h
  | some view =>
    cases ht : view.titleEl with
    | none => simpa only [focusTitle, hv, ht] using h
    | some tEl =>
      have hcl := cleanup_clears s h
      simp only [focusTitle, hv, ht]
      right
      exact ⟨tEl.id, (cleanupTitleHandlers s).nextId, (cleanupTitleHandlers s).nextId + 1,
        rfl, rfl, rfl, by omega, by simp [hcl]⟩

theorem runBegins_inv (envs : List Env) (s : St) (h : sessionInv s) :
    sessionInv (runBegins s envs) := by
  induction envs generalizing s with
  | nil => exact h
  | cons e es ih => exact ih _ (focusTitle_inv s e h)

theorem sessionInv_len (s : St) (h : sessionInv s) : s.listeners.length ≤ 2 := by
  rcases h with ⟨_, _, _, h4⟩ | ⟨el, i, k, _, _, _, _, hl⟩
  · simp [h4]
  · simp [hl]

theorem sessionInv_target (s : St) (h : sessionInv s) :
    ∀ el, s.currentTitleEl = some el → ∀ x ∈ s.listeners, x.el = el := by
  rcases h with ⟨h1, _, _, h4⟩ | ⟨el, i, k, h1, _, _, _, hl⟩
  · intro el hel; rw [h1] at hel; exact absurd hel (by simp)
  · intro el2 hel x hx
    rw [h1] at hel
    injection hel with hel
    subst hel
    rw [hl] at hx
    simp only [List.mem_cons, List.not_mem_nil, or_false] at hx
    rcases hx with hx | hx
    · rw [hx]
    · rw [hx]

/- ------------------------------------------------------------------ -/
/- Claim theorems.                                                     -/
/- ------------------------------------------------------------------ -/

/-- Claim C1: the interception filter invokes the session's `begin()` if
and only if the key is "k", the target lies inside a `.cm-editor` subtree,
normal mode is detected (fat cursor, vim cursor layer, or tracked mode
"normal"), and the active view's cursor is on line 0; when everything
matches it prevents default and propagation and calls `begin()` exactly
once, otherwise it leaves the event and the state untouched. -/
theorem interception_filter_gate (s : St) (env : Env) (e : KeyEvt) :
    (filterFires s env e = true →
      handleEditorKeydown s env e =
        ⟨true, true, 1, (focusTitle s env).1, (focusTitle s env).2⟩) ∧
    (filterFires s env e = false →
      handleEditorKeydown s env e = ⟨false, false, 0, s, []⟩) := by
  obtain ⟨key, anc⟩ := e
  cases anc with
  | none =>
    by_cases hk : key = "k" <;> simp [filterFires, handleEditorKeydown, hk]
  | some ed =>
    cases hav : env.activeView with
    | none =>
      by_cases hk : key = "k" <;> simp [filterFires, handleEditorKeydown, hk, hav]
    | some view =>
      by_cases hk : key = "k" <;>
        by_cases hm : (ed.hasFatCursor || ed.hasVimCursorLayer ||
          decide (s.vimModeClass = "normal")) = true <;>
        by_cases hl : view.cursorLine = 0 <;>
        simp [filterFires, handleEditorKeydown, hk, hm, hl, hav]

/-- Witness for C1 at a concrete firing input. -/
theorem interception_filter_gate_witness :
    filterFires initSt envFilterA evtK = true ∧
    handleEditorKeydown initSt envFilterA evtK =
      ⟨true, true, 1, (focusTitle initSt envFilterA).1, (focusTitle initSt envFilterA).2⟩ :=
  ⟨by decide, (interception_filter_gate initSt envFilterA evtK).1 (by decide)⟩

/-- Claim C2: in the title keydown handler Escape and Enter produce
identical outcomes; each prevents default and propagation, commits the
current `editedTitle`, tears the session down, and (when an active view
exists) focuses the body editor with the cursor at line 0, column 0. -/
theorem escape_enter_identical (s : St) (env : Env) :
    handleTitleKey s env "Escape" = handleTitleKey s env "Enter" ∧
    (handleTitleKey s env "Escape").prevented = true ∧
    (handleTitleKey s env "Escape").stopped = true ∧
    (handleTitleKey s env "Escape").effects =
      saveTitleValue env s.editedTitle ++ (returnToEditor (cleanupTitleHandlers s) env).2 ∧
    (handleTitleKey s env "Escape").state = (returnToEditor (cleanupTitleHandlers s) env).1 ∧
    (∀ view, env.activeView = some view →
      (returnToEditor (cleanupTitleHandlers s) env).2 =
        [Effect.focusEditorBody, Effect.setCursor 0 0]) := by
  refine ⟨rfl, rfl, rfl, rfl, rfl, ?_⟩
  intro view hv
  simp [returnToEditor, hv]

/-- Witness for C2 at a concrete open-session state. -/
theorem escape_enter_identical_witness :
    handleTitleKey stOpenSession envSessionA "Escape" =
      handleTitleKey stOpenSession envSessionA "Enter" ∧
    (returnToEditor (cleanupTitleHandlers stOpenSession) envSessionA).2 =
      [Effect.focusEditorBody, Effect.setCursor 0 0] :=
  ⟨(escape_enter_identical stOpenSession envSessionA).1,
   (escape_enter_identical stOpenSession envSessionA).2.2.2.2.2 _ rfl⟩

/-- Counterexample to claim C3: the commit operation does not trim its raw
input.  The raw value " " trims to the empty string, yet the commit shows
no "Title cannot be empty" notice and issues a rename (to "dir/ .md"). -/
theorem commit_no_trim_cex :
    jsTrim " " = "" ∧
    renamePaths (saveTitleValue envCommitA " ") = ["dir/ .md"] ∧
    Effect.notice "Title cannot be empty" ∉ saveTitleValue envCommitA " " := by decide

/-- Claim C3 (amended): the commit operation performs no trimming of its
own; it reports the "Title cannot be empty" failure and performs zero
rename calls when its input value is exactly the empty string (given an
active view with a file).  Values reaching it have already been trimmed by
the session's input handler. -/
theorem commit_empty_value_notice (env : Env) (view : ViewS) (file : FileInfo)
    (hv : env.activeView = some view) (hf : view.file = some file) :
    saveTitleValue env "" = [Effect.notice "Title cannot be empty"] ∧
    renamePaths (saveTitleValue env "") = [] := by
  simp [saveTitleValue, hv, hf, renamePaths]

/-- Witness for the amended C3 at a concrete environment. -/
theorem commit_empty_value_notice_witness :
    saveTitleValue envCommitA "" = [Effect.notice "Title cannot be empty"] ∧
    renamePaths (saveTitleValue envCommitA "") = [] :=
  commit_empty_value_notice envCommitA _ _ rfl rfl

/-- Claim C4: after any sequence of `begin()` calls starting from a state
satisfying the session invariant (e.g. the freshly loaded plugin), the
invariant still holds — at most one session is open, at most one pair of
listeners is attached, and every attached listener sits on the most
recently targeted title surface. -/
theorem begin_single_session_inv (envs : List Env) (s : St) (h : sessionInv s) :
    sessionInv (runBegins s envs) ∧
    (runBegins s envs).listeners.length ≤ 2 ∧
    (∀ el, (runBegins s envs).currentTitleEl = some el →
      ∀ x ∈ (runBegins s envs).listeners, x.el = el) := by
  have hi := runBegins_inv envs s h
  exact ⟨hi, sessionInv_len _ hi, sessionInv_target _ hi⟩

/-- Witness for C4: two successive `begin()` calls from the initial state. -/
theorem begin_single_session_inv_witness :
    sessionInv (runBegins initSt [envSessionA, envSessionA]) ∧
    (runBegins initSt [envSessionA, envSessionA]).listeners.length ≤ 2 ∧
    (∀ el, (runBegins initSt [envSessionA, envSessionA]).currentTitleEl = some el →
      ∀ x ∈ (runBegins initSt [envSessionA, envSessionA]).listeners, x.el = el) :=
  begin_single_session_inv [envSessionA, envSessionA] initSt (Or.inl ⟨rfl, rfl, rfl, rfl⟩)

/-- Counterexample to claim C5: the commit operation builds the target path
from its raw value, not from the trimmed value.  For raw value " a "
(trimmed form "a", non-empty and different from basename "b") the single
rename goes to "d/ a .md", not to "d/a.md". -/
theorem rename_path_untrimmed_cex :
    jsTrim " a " ≠ "" ∧ jsTrim " a " ≠ "b" ∧
    renamePaths (saveTitleValue envRenameB " a ") = ["d/ a .md"] ∧
    "d/ a .md" ≠ "d/" ++ jsTrim " a " ++ ".md" := by decide

/-- Claim C5 (amended): for every commit whose value is already trimmed,
non-empty, and different from the current basename, exactly one rename
request is issued, to "folder/value.md" when the parent folder path is
non-empty and to "value.md" when it is empty. -/
theorem rename_path_built (env : Env) (view : ViewS) (file : FileInfo) (v : String)
    (hv : env.activeView = some view) (hf : view.file = some file)
    (htrim : jsTrim v = v) (hne : v ≠ "") (hdiff : v ≠ file.basename) :
    renamePaths (saveTitleValue env v) =
      [if file.parentPath.getD "" ≠ ""
       then file.parentPath.getD "" ++ "/" ++ v ++ ".md"
       else v ++ ".md"] := by
  by_cases hfold : file.parentPath.getD "" ≠ "" <;>
    cases hr : env.renameRes <;>
    simp [saveTitleValue, hv, hf, hne, hdiff, hr, hfold, renamePaths]

/-- Witness for the amended C5 at a concrete environment. -/
theorem rename_path_built_witness :
    renamePaths (saveTitleValue envRenameB "a") =
      [if (FileInfo.mk "b" (some "d")).parentPath.getD "" ≠ ""
       then (FileInfo.mk "b" (some "d")).parentPath.getD "" ++ "/" ++ "a" ++ ".md"
       else "a" ++ ".md"] :=
  rename_path_built envRenameB _ _ "a" rfl rfl (by decide) (by decide) (by decide)

/-- Counterexample to claim C6: with basename "a", committing the raw value
" a " (whose trimmed form equals the basename) is not a silent no-op — it
issues a rename; and with an empty basename, committing "" (equal to the
basename) shows the "Title cannot be empty" notice. -/
theorem unchanged_title_cex :
    jsTrim " a " = "a" ∧
    renamePaths (saveTitleValue envUnchangedA " a ") = ["d/ a .md"] ∧
    noticeMsgs (saveTitleValue envEmptyBase "") = ["Title cannot be empty"] := by decide

/-- Claim C6 (amended): for every commit whose value itself equals the
document's current basename and is non-empty, the commit is a silent
no-op: no effects at all, hence zero rename calls and zero notices. -/
theorem unchanged_title_silent (env : Env) (view : ViewS) (file : FileInfo) (v : String)
    (hv : env.activeView = some view) (hf : view.file = some file)
    (heq : v = file.basename) (hne : v ≠ "") :
    saveTitleValue env v = [] := by
  subst heq
  simp [saveTitleValue, hv, hf, hne]

/-- Witness for the amended C6 at a concrete environment. -/
theorem unchanged_title_silent_witness :
    saveTitleValue envUnchangedA "a" = [] :=
  unchanged_title_silent envUnchangedA _ _ "a" rfl rfl rfl (by decide)

/-- Claim C7: when `begin()` runs with an active view whose inline title
element is absent, it emits exactly the "title not available" notice and
aborts, leaving the state — including the attached-listener table —
completely unchanged and producing no focus effect. -/
theorem missing_title_notice_abort (s : St) (env : Env) (view : ViewS)
    (hv : env.activeView = some view) (ht : view.titleEl = none) :
    focusTitle s env = (s, [Effect.notice inlineTitleNotFoundMsg]) := by
  simp [focusTitle, hv, ht]

/-- Witness for C7 at a concrete environment. -/
theorem missing_title_notice_abort_witness :
    focusTitle initSt envNoTitle = (initSt, [Effect.notice inlineTitleNotFoundMsg]) :=
  missing_title_notice_abort initSt envNoTitle _ rfl rfl

/-- Claim C8: teardown is idempotent — running it twice equals running it
once, it always leaves the handler references and element handle cleared
and the session marked closed, and from any state satisfying the session
invariant it leaves no listeners attached. -/
theorem teardown_idempotent (s : St) :
    cleanupTitleHandlers (cleanupTitleHandlers s) = cleanupTitleHandlers s ∧
    (cleanupTitleHandlers s).titleKeyHandler = none ∧
    (cleanupTitleHandlers s).titleInputHandler = none ∧
    (cleanupTitleHandlers s).currentTitleEl = none ∧
    (cleanupTitleHandlers s).inTitleMode = false ∧
    (sessionInv s → (cleanupTitleHandlers s).listeners = []) :=
  ⟨rfl, rfl, rfl, rfl, rfl, cleanup_clears s⟩

/-- Witness for C8 at a concrete open-session state. -/
theorem teardown_idempotent_witness :
    cleanupTitleHandlers (cleanupTitleHandlers stOpenSession) =
      cleanupTitleHandlers stOpenSession ∧
    (cleanupTitleHandlers stOpenSession).listeners = [] :=
  ⟨(teardown_idempotent stOpenSession).1,
   (teardown_idempotent stOpenSession).2.2.2.2.2
     (Or.inr ⟨3, 0, 1, rfl, rfl, rfl, by decide, rfl⟩)⟩

/-- Claim C9: `begin()` with no active markdown view returns silently with
no notice and no state change, and the commit operation returns silently —
before even the empty-title check — when there is no view or no backing
file, for every value including the empty string. -/
theorem silent_no_view (s : St) (env : Env) :
    (env.activeView = none → focusTitle s env = (s, [])) ∧
    (∀ v, env.activeView = none → saveTitleValue env v = []) ∧
    (∀ view v, env.activeView = some view → view.file = none →
      saveTitleValue env v = []) := by
  refine ⟨?_, ?_, ?_⟩
  · intro hv; simp [focusTitle, hv]
  · intro v hv; simp [saveTitleValue, hv]
  · intro view v hv hf; simp [saveTitleValue, hv, hf]

/-- Witness for C9 at concrete environments. -/
theorem silent_no_view_witness :
    focusTitle initSt envNoView = (initSt, []) ∧
    saveTitleValue envNoView "" = [] ∧
    saveTitleValue envNoFile "" = [] :=
  ⟨(silent_no_view initSt envNoView).1 rfl,
   (silent_no_view initSt envNoView).2.1 "" rfl,
   (silent_no_view initSt envNoFile).2.2 _ "" rfl rfl⟩

/-- Claim C10: the live value invariant — after session initialisation and
after every input event, the stored `editedTitle` equals the surface's text
content trimmed (empty string when the content is null), and that value is
its own trim, so it never carries leading or trailing whitespace. -/
theorem live_value_trimmed (s : St) (t : Option String) (env : Env) (view : ViewS)
    (tEl : TitleSurface)
    (hv : env.activeView = some view) (ht : view.titleEl = some tEl) :
    (titleInputRun s t).editedTitle = jsTextVal t ∧
    jsTrim ((titleInputRun s t).editedTitle) = (titleInputRun s t).editedTitle ∧
    (focusTitle s env).1.editedTitle = jsTextVal tEl.textContent ∧
    jsTrim ((focusTitle s env).1.editedTitle) = (focusTitle s env).1.editedTitle := by
  refine ⟨rfl, jsTextVal_trimmed t, ?_, ?_⟩
  · simp [focusTitle, hv, ht]
  · simp [focusTitle, hv, ht, jsTextVal_trimmed]

/-- Witness for C10 at a concrete input event and environment. -/
theorem live_value_trimmed_witness :
    (titleInputRun initSt (some "  x  ")).editedTitle = jsTextVal (some "  x  ") ∧
    jsTrim ((titleInputRun initSt (some "  x  ")).editedTitle) =
      (titleInputRun initSt (some "  x  ")).editedTitle ∧
    (focusTitle initSt envSessionA).1.editedTitle =
      jsTextVal (TitleSurface.mk 5 (some " My Note ")).textContent ∧
    jsTrim ((focusTitle initSt envSessionA).1.editedTitle) =
      (focusTitle initSt envSessionA).1.editedTitle :=
  live_value_trimmed initSt (some "  x  ") envSessionA _ _ rfl rfl

end VimTitleEdit
